import Mathlib

/-!
Shallow embedding of the crypto-monitor dashboard server (`dashboard-server.js`,
class `CryptoMonitor`).  JavaScript numbers are modelled as exact rationals
(`ℚ`); JavaScript arrays as `List`; `null`/`undefined`-able numeric fields as
`Option ℚ`.  Each definition mirrors the control flow of the source function it
is named after.
-/

namespace CryptoMonitor

/-- JavaScript `x || d` for a numeric field `x` that may be `null`/`undefined`:
`0`, `null` and `undefined` are falsy and replaced by the default `d`. -/
def jsOr (x : Option ℚ) (d : ℚ) : ℚ :=
  match x with
  | none => d
  | some v => if v = 0 then d else v

/-- JavaScript `Math.round` (round half toward positive infinity). -/
def jsRound (x : ℚ) : ℤ := ⌊x + 1/2⌋

/-- JavaScript `Math.abs`. -/
def jsAbs (x : ℚ) : ℚ := if x < 0 then -x else x

/-- JavaScript `arr.slice(-n)` for `n > 0`: the last `n` elements (the whole
list when it is shorter than `n`). -/
def lastN (n : ℕ) (l : List ℚ) : List ℚ := l.drop (l.length - n)

/-- JavaScript falsiness of a number-or-null value: `!x` is true exactly when
`x` is `null`/`undefined` or `0`. -/
def falsyQ : Option ℚ → Bool
  | none => true
  | some x => x == 0

/-! ## Indicator library -/

/-- The consecutive price deltas `prices[i] - prices[i-1]` built by the loop at
the top of `calculateRSI`. -/
def deltas (prices : List ℚ) : List ℚ :=
  List.zipWith (fun a b => a - b) (prices.drop 1) prices

/-- `deltas.map(delta => delta > 0 ? delta : 0)` from `calculateRSI`. -/
def gains (ds : List ℚ) : List ℚ := ds.map (fun d => if 0 < d then d else 0)

/-- `deltas.map(delta => delta < 0 ? Math.abs(delta) : 0)` from `calculateRSI`. -/
def losses (ds : List ℚ) : List ℚ :=
  ds.map (fun d => if d < 0 then jsAbs d else 0)

/-- `gains.slice(0, period).reduce((a, b) => a + b, 0) / period` from
`calculateRSI`. -/
def avgGain (prices : List ℚ) (period : ℕ) : ℚ :=
  ((gains (deltas prices)).take period).sum / period

/-- `losses.slice(0, period).reduce((a, b) => a + b, 0) / period` from
`calculateRSI`. -/
def avgLoss (prices : List ℚ) (period : ℕ) : ℚ :=
  ((losses (deltas prices)).take period).sum / period

/-- `calculateRSI(prices, period = 14)`. -/
def calculateRSI (prices : List ℚ) (period : ℕ := 14) : Option ℚ :=
  if prices.length < period + 1 then none
  else
    let aG := avgGain prices period
    let aL := avgLoss prices period
    if aL = 0 then some 100
    else some (100 - 100 / (1 + aG / aL))

/-- `calculateSMA(prices, period)`: average of `prices.slice(-period)`. -/
def calculateSMA (prices : List ℚ) (period : ℕ) : Option ℚ :=
  if prices.length < period then none
  else some ((lastN period prices).sum / period)

/-- `calculateEMA(prices, period)`: seed with the simple average of the first
`period` prices, then fold the recurrence with multiplier `2 / (period + 1)`
over the remaining prices. -/
def calculateEMA (prices : List ℚ) (period : ℕ) : Option ℚ :=
  if prices.length < period then none
  else
    let multiplier : ℚ := 2 / (period + 1)
    let seed := (prices.take period).sum / period
    some ((prices.drop period).foldl
      (fun ema p => p * multiplier + ema * (1 - multiplier)) seed)

structure MacdResult where
  macd : ℚ
  signal : ℚ
  histogram : ℚ
deriving Repr, DecidableEq

/-- `calculateMACD(prices, fastPeriod = 12, slowPeriod = 26, signalPeriod = 9)`.
The `signalPeriod` parameter of the source is never used by its body and is
omitted.  The source guards the two EMAs with JavaScript falsiness
(`if (!fastEMA || !slowEMA) return null`), so an EMA equal to `0` also yields
`null`.  This definition idealizes the arithmetic as exact rationals, under
which the signal-line blend `macdLine * 0.2 + macdLine * 0.8` cancels
exactly; the source executes it in binary64, where the cancellation can
fail — `calculateMACD_fp` below models that rounding exactly. -/
def calculateMACD (prices : List ℚ) (fastPeriod : ℕ := 12)
    (slowPeriod : ℕ := 26) : Option MacdResult :=
  if prices.length < slowPeriod then none
  else
    let fastEMA := calculateEMA prices fastPeriod
    let slowEMA := calculateEMA prices slowPeriod
    if falsyQ fastEMA || falsyQ slowEMA then none
    else
      let macdLine := fastEMA.getD 0 - slowEMA.getD 0
      let signalLine := macdLine * (0.2 : ℚ) + macdLine * (0.8 : ℚ)
      let histogram := macdLine - signalLine
      some ⟨macdLine, signalLine, histogram⟩

/-- `calculateBollingerBands(prices, period = 20, stdDev = 2)`, restricted to
its rational content: the source returns `null` under the same two guards and
otherwise bands built from the centerline (SMA) and the population variance
over the last `period` prices; the bands themselves involve `Math.sqrt` of the
variance, so the embedding returns the defining pair (centerline, variance),
which is `none` exactly when the source returns `null`. -/
def calculateBollingerBands (prices : List ℚ) (period : ℕ := 20) :
    Option (ℚ × ℚ) :=
  if prices.length < period then none
  else
    let sma := calculateSMA prices period
    if falsyQ sma then none
    else
      let smaV := sma.getD 0
      let recent := lastN period prices
      let variance := (recent.map (fun p => (p - smaV) ^ (2 : ℕ))).sum / period
      some (smaV, variance)

/-! ## Data model -/

/-- One fetched per-asset record, with the fields read by the analysis
functions.  Numeric fields are optional because the upstream JSON may omit
them; the source reads them through `|| default`. -/
structure CoinData where
  id : String := ""
  current_price : Option ℚ := none
  price_change_percentage_1h_in_currency : Option ℚ := none
  price_change_percentage_24h_in_currency : Option ℚ := none
  price_change_percentage_7d_in_currency : Option ℚ := none
  price_change_percentage_30d_in_currency : Option ℚ := none
  total_volume : Option ℚ := none
  market_cap : Option ℚ := none
  market_cap_rank : Option ℚ := none
  high_24h : Option ℚ := none
  low_24h : Option ℚ := none
  sparkline_in_7d : Option (List (Option ℚ)) := none
deriving Repr, DecidableEq

/-- The sparkline series with `null`/`undefined` entries filtered out, as in
`coinData.sparkline_in_7d.price.filter(price => price !== null && price !==
undefined)`; empty when there is no sparkline object. -/
def sparklineFiltered (c : CoinData) : List ℚ :=
  match c.sparkline_in_7d with
  | none => []
  | some l => l.filterMap id

/-! ## Price history store -/

/-- One ingestion into a per-asset price series: push the price, then
`shift()` the oldest entry away if the series now exceeds 50 entries
(the body of the `forEach` in `updatePriceHistory`). -/
def pushPrice (hist : List ℚ) (p : ℚ) : List ℚ :=
  let h := hist ++ [p]
  if 50 < h.length then h.drop 1 else h

/-- `updatePriceHistory(coinsData)`: each coin in the batch pushes its
`current_price || 0` onto its own series.  The store is a total map from coin
id to series, a missing entry being the empty series. -/
def updatePriceHistory (store : String → List ℚ) (coins : List CoinData) :
    String → List ℚ :=
  coins.foldl
    (fun st coin => fun k =>
      if k = coin.id then pushPrice (st coin.id) (jsOr coin.current_price 0)
      else st k)
    store

/-! ## HTF (long-horizon) classifier -/

/-- The price series used for the RSI inside `analyzeHTFInvestment`: the
stored history, replaced by the filtered sparkline when the history has at
most 14 points and the sparkline has more than 14. -/
def htfRsiPrices (c : CoinData) (stored : List ℚ) : List ℚ :=
  if stored.length ≤ 14 ∧ c.sparkline_in_7d.isSome ∧
      14 < (sparklineFiltered c).length then
    sparklineFiltered c
  else stored

/-- The score accumulated by `analyzeHTFInvestment` before the liquidity
quality filter (everything up to and excluding
`if (marketCap < 100000000 || volume < 5000000)`).  Signal strings are
dropped: they do not feed back into the score. -/
def htfPreScore (c : CoinData) (stored : List ℚ) : ℚ :=
  let p7 := jsOr c.price_change_percentage_7d_in_currency 0
  let p30 := jsOr c.price_change_percentage_30d_in_currency 0
  let p1 := jsOr c.price_change_percentage_1h_in_currency 0
  let p24 := jsOr c.price_change_percentage_24h_in_currency 0
  let volume := jsOr c.total_volume 0
  let marketCap := jsOr c.market_cap 1
  let rank := jsOr c.market_cap_rank 999
  let sTrend : ℚ :=
    if 20 < p30 ∧ 5 < p7 then 5
    else if 10 < p30 ∧ 0 < p7 then 4
    else if 5 < p30 ∧ -5 < p7 then 2
    else 0
  let sMomentum : ℚ := if 15 < p7 ∧ 25 < p30 then 4 else 0
  let sRecovery : ℚ :=
    if p30 < -20 ∧ 10 < p7 then 5
    else if p30 < -10 ∧ 5 < p7 then 3
    else 0
  let sSustained : ℚ := if 3 < p7 ∧ 10 < p30 then 3 else 0
  let sCap : ℚ :=
    if 1000000000 < marketCap then 3
    else if 500000000 < marketCap then 2
    else if 100000000 < marketCap then 1
    else 0
  let volumeRatio := volume / marketCap
  let sVolume : ℚ :=
    if 0.01 < volumeRatio ∧ volumeRatio < 0.20 then 2
    else if 0.005 < volumeRatio then 1
    else 0
  let rsiPrices := htfRsiPrices c stored
  let sRsi : ℚ :=
    if 14 < rsiPrices.length then
      match calculateRSI rsiPrices 14 with
      | some rsi => if 35 < rsi ∧ rsi < 75 then 2 else if rsi < 35 then 3 else 0
      | none => 0
    else 0
  let sRank : ℚ :=
    if 300 < rank then -4
    else if 150 < rank then -2
    else if rank ≤ 30 then 3
    else if rank ≤ 50 then 2
    else if rank ≤ 100 then 1
    else 0
  let sPump : ℚ := if 30 < p24 then -2 else if 15 < p1 then -1 else 0
  sTrend + sMomentum + sRecovery + sSustained + sCap + sVolume + sRsi +
    sRank + sPump

/-- The two bonuses applied by `analyzeHTFInvestment` after the liquidity
quality filter: `+2` for multi-timeframe alignment (`priceChange30d > 0 &&
priceChange7d > -5 && score >= 4`) and `+1` for stable weekly performance
(`Math.abs(priceChange7d) < 20 && priceChange30d > 5`). -/
def htfBonuses (c : CoinData) (score : ℚ) : ℚ :=
  let p7 := jsOr c.price_change_percentage_7d_in_currency 0
  let p30 := jsOr c.price_change_percentage_30d_in_currency 0
  let b1 := if 0 < p30 ∧ -5 < p7 ∧ 4 ≤ score then score + 2 else score
  if jsAbs p7 < 20 ∧ 5 < p30 then b1 + 1 else b1

/-- `analyzeHTFInvestment(coinData)` restricted to its returned `score`:
the accumulated score, then the liquidity quality filter
(`score = Math.max(0, score - 6)` when market cap `< 100000000` or 24h volume
`< 5000000`), then the post-filter bonuses. -/
def analyzeHTFInvestment (c : CoinData) (stored : List ℚ) : ℚ :=
  let pre := htfPreScore c stored
  let filtered :=
    if jsOr c.market_cap 1 < 100000000 ∨ jsOr c.total_volume 0 < 5000000 then
      max 0 (pre - 6)
    else pre
  htfBonuses c filtered

/-- The raw-score history retained by `analyzeHTFInvestmentWithStability`:
push the current score, then `shift()` when more than 10 are held. -/
def retainedScores (prev : List ℚ) (cur : ℚ) : List ℚ :=
  let s := prev ++ [cur]
  if 10 < s.length then s.drop 1 else s

/-- The stabilized numeric score computed by
`analyzeHTFInvestmentWithStability` from the retained raw-score history:
average, consistency / persistence bonuses, the hysteresis floor
(`Math.max(stabilizedScore, 5.0)` when at least 3 retained scores are `>= 5`
and the current raw score is `>= 4`), and final rounding to one decimal.
The variance-based `scoreStability` metric of the source is computed but never
feeds the score and is omitted. -/
def htfStabilityScore (prev : List ℚ) (cur : ℚ) : ℚ :=
  let scores := retainedScores prev cur
  let avgScore := scores.sum / scores.length
  let qualifying := (scores.filter (fun s => 5 ≤ s)).length
  let consistencyRatio : ℚ := qualifying / scores.length
  let s1 := avgScore
  let s2 := if 0.7 ≤ consistencyRatio ∧ 5 ≤ avgScore then s1 + 1 else s1
  let s3 := if 5 ≤ scores.length ∧ 0.6 ≤ consistencyRatio then s2 + 0.5 else s2
  let s4 := if 3 ≤ qualifying ∧ 4 ≤ cur then max s3 5 else s3
  (jsRound (s4 * 10) : ℚ) / 10

/-- `analyzeHTFInvestmentWithStability(coinData)` restricted to its returned
`score`: the raw `analyzeHTFInvestment` score fed through the retained-history
stabilization. -/
def analyzeHTFInvestmentWithStability (c : CoinData) (stored : List ℚ)
    (prevScores : List ℚ) : ℚ :=
  htfStabilityScore prevScores (analyzeHTFInvestment c stored)

/-! ## Market cycle phase with stability -/

structure PhaseInfo where
  phase : String
  description : String
  action : String
deriving Repr, DecidableEq

/-- `determineCyclePhase(overallCycle)` on the parsed risk and opportunity
scores. -/
def determineCyclePhase (risk opp : ℚ) : PhaseInfo :=
  if 8 < risk ∧ opp < 3 then
    ⟨"Cycle Top Warning", "High risk of cycle top - consider taking profits",
      "Reduce Risk"⟩
  else if 6 < risk ∧ opp < 5 then
    ⟨"Late Cycle", "Advanced cycle stage - be cautious", "Monitor Closely"⟩
  else if risk < 4 ∧ 7 < opp then
    ⟨"Cycle Bottom Opportunity",
      "High probability cycle bottom - accumulation zone", "Accumulate"⟩
  else if risk < 5 ∧ 5 < opp then
    ⟨"Early Cycle", "Early cycle stage - good entry opportunities", "Buy Dips"⟩
  else
    ⟨"Mid Cycle", "Middle of cycle - balanced risk/reward", "Hold & Monitor"⟩

/-- One entry of `this.cycleHistory` (the metadata fields `timestamp`,
`cycleBias` and `cycleStrength`, which no decision reads, are omitted). -/
structure CycleEntry where
  phase : String
  description : String
  action : String
  risk : ℚ
  opportunity : ℚ
deriving Repr, DecidableEq

/-- Append the new cycle entry and evict the oldest when more than 12 are
held (`push` then `shift`). -/
def pushCycleEntry (history : List CycleEntry) (e : CycleEntry) :
    List CycleEntry :=
  let h := history ++ [e]
  if 12 < h.length then h.drop 1 else h

/-- Insertion-order key list of a JavaScript object built by
`phaseCounts[phase] = (phaseCounts[phase] || 0) + 1`: each phase appears once,
in order of first occurrence. -/
def phaseKeys (ps : List String) : List String :=
  ps.foldl (fun ks p => if p ∈ ks then ks else ks ++ [p]) []

/-- `Object.keys(phaseCounts).reduce((a, b) => phaseCounts[a] > phaseCounts[b]
? a : b)`: the first key of maximal count.  The source throws on an empty
object; this is only reached with at least 3 history entries, so the `[]`
case returns a junk value. -/
def dominantOf (ps : List String) : String :=
  match phaseKeys ps with
  | [] => ""
  | k :: ks => ks.foldl (fun a b => if ps.count b < ps.count a then a else b) k

/-- `countCycleSwitches()`: adjacent phase changes among the first
`min(length, 8)` entries of the cycle history. -/
def countSwitchesAux : List String → ℕ
  | a :: b :: rest => (if a ≠ b then 1 else 0) + countSwitchesAux (b :: rest)
  | _ => 0

def countCycleSwitches (h : List CycleEntry) : ℕ :=
  countSwitchesAux ((h.take 8).map CycleEntry.phase)

structure StabilityInfo where
  dominantPhase : String
  stabilityRatio : ℚ
  recentSwitches : ℕ
  avgRisk : ℚ
  avgOpportunity : ℚ
  riskVolatility : ℚ
  opportunityVolatility : ℚ
deriving Repr, DecidableEq

structure PhaseOutput where
  phase : String
  description : String
  action : String
  stability : StabilityInfo
deriving Repr, DecidableEq

/-- The last `n` cycle entries, `history.slice(-n)` for `n > 0`. -/
def lastEntries (n : ℕ) (l : List CycleEntry) : List CycleEntry :=
  l.drop (l.length - n)

/-- `determineCyclePhaseWithStability(overallCycle)` on the parsed risk and
opportunity scores: returns the updated cycle history together with the
published phase record. -/
def determineCyclePhaseWithStability (history : List CycleEntry)
    (risk opp : ℚ) : List CycleEntry × PhaseOutput :=
  let cur := determineCyclePhase risk opp
  let entry : CycleEntry := ⟨cur.phase, cur.description, cur.action, risk, opp⟩
  let h := pushCycleEntry history entry
  let fallback : PhaseOutput :=
    ⟨cur.phase, cur.description, cur.action,
      ⟨cur.phase, 100, countCycleSwitches h, risk, opp, 0, 0⟩⟩
  if 3 ≤ h.length then
    let recentPhases := (lastEntries 8 h).map CycleEntry.phase
    let dom := dominantOf recentPhases
    let phaseStability : ℚ := recentPhases.count dom / recentPhases.length
    if 0.6 < phaseStability then
      let recent5 := lastEntries 5 h
      let avgRisk := (recent5.map CycleEntry.risk).sum / recent5.length
      let avgOpp := (recent5.map CycleEntry.opportunity).sum / recent5.length
      let riskDiff := jsAbs (risk - avgRisk)
      let oppDiff := jsAbs (opp - avgOpp)
      if riskDiff < 2 ∧ oppDiff < 2 then
        let domEntry := (h.find? (fun e => e.phase == dom)).getD entry
        (h,
          ⟨dom, domEntry.description ++ " (stabilized)", domEntry.action,
            ⟨dom, (jsRound (phaseStability * 100) : ℚ), countCycleSwitches h,
              (jsRound (avgRisk * 10) : ℚ) / 10,
              (jsRound (avgOpp * 10) : ℚ) / 10,
              (jsRound (riskDiff * 10) : ℚ) / 10,
              (jsRound (oppDiff * 10) : ℚ) / 10⟩⟩)
      else (h, fallback)
    else (h, fallback)
  else (h, fallback)

/-- The cycle entry appended on a tick with the given parsed risk and
opportunity scores. -/
def newCycleEntry (risk opp : ℚ) : CycleEntry :=
  ⟨(determineCyclePhase risk opp).phase,
    (determineCyclePhase risk opp).description,
    (determineCyclePhase risk opp).action, risk, opp⟩

/-- The phases of the last 8 entries of a cycle history (the dominance
window). -/
def cycleWindow (h : List CycleEntry) : List String :=
  (lastEntries 8 h).map CycleEntry.phase

/-- The dominant phase of the window, as computed by the source's
`Object.keys(...).reduce`. -/
def cycleDominant (h : List CycleEntry) : String := dominantOf (cycleWindow h)

/-- The dominance ratio `dominantCount / recentPhases.length`. -/
def cycleStabilityRatio (h : List CycleEntry) : ℚ :=
  (cycleWindow h).count (cycleDominant h) / (cycleWindow h).length

/-- Mean risk over the last 5 entries. -/
def cycleAvgRisk (h : List CycleEntry) : ℚ :=
  ((lastEntries 5 h).map CycleEntry.risk).sum / (lastEntries 5 h).length

/-- Mean opportunity over the last 5 entries. -/
def cycleAvgOpp (h : List CycleEntry) : ℚ :=
  ((lastEntries 5 h).map CycleEntry.opportunity).sum /
    (lastEntries 5 h).length

/-! ## Resilient fetcher -/

/-- The asset payload carried by a successful response; opaque to the rate
limit logic. -/
abbrev Payload := List ℕ

structure CacheEntry where
  data : Payload
  timestamp : ℤ
deriving Repr, DecidableEq

structure RateLimitInfo where
  isLimited : Bool := false
  resetTime : Option ℤ := none
  retryAfter : Option ℤ := none
  requestCount : ℕ := 0
  lastRequest : Option ℤ := none
deriving Repr, DecidableEq

structure FetchState where
  rateLimitInfo : RateLimitInfo := {}
  lastSuccessfulFetch : Option ℤ := none
  apiCache : String → Option CacheEntry := fun _ => none

/-- What the upstream returns to one network attempt.  `retryAfter` models the
`retry-after` header in seconds when present. -/
inductive ApiResponse where
  | success (data : Payload) (retryAfter : Option ℕ)
  | httpError (status : ℕ) (retryAfter : Option ℕ)
  | timeout
  | netError
deriving Repr, DecidableEq

/-- The cache key `top_cryptos_${limit}` of `getTopCryptos`. -/
def cacheKey (limit : ℕ) : String := "top_cryptos_" ++ toString limit

/-- JavaScript truthiness of an optional timestamp (`null` and `0` falsy). -/
def truthyTime : Option ℤ → Bool
  | none => false
  | some t => t != 0

/-- `checkRateLimitExpiry()`: clear the limited flag when the recorded reset
time has strictly passed. -/
def checkRateLimitExpiry (st : FetchState) (now : ℤ) : FetchState :=
  if st.rateLimitInfo.isLimited ∧ truthyTime st.rateLimitInfo.resetTime ∧
      st.rateLimitInfo.resetTime.getD 0 < now then
    { st with rateLimitInfo :=
        { st.rateLimitInfo with
          isLimited := false
          retryAfter := none
          resetTime := none } }
  else st

/-- `shouldUseCachedData()`: rate limited, or a truthy last successful fetch
within the last 10 minutes. -/
def shouldUseCachedData (st : FetchState) (now : ℤ) : Bool :=
  st.rateLimitInfo.isLimited ||
    (truthyTime st.lastSuccessfulFetch &&
      now - st.lastSuccessfulFetch.getD 0 < 600000)

/-- `handleRateLimitError(error)`: set the limited flag; a 429 with a
`retry-after` header of `S` seconds backs off `S` seconds, a 429 without one
backs off 5 minutes, and every other error backs off 1 minute. -/
def handleRateLimitError (st : FetchState) (now : ℤ) (err : ApiResponse) :
    FetchState :=
  let backoff : ℤ :=
    match err with
    | .httpError 429 (some s) => s * 1000
    | .httpError 429 none => 5 * 60 * 1000
    | _ => 60 * 1000
  { st with rateLimitInfo :=
      { st.rateLimitInfo with
        isLimited := true
        retryAfter := some backoff
        resetTime := some (now + backoff) } }

/-- `updateRateLimitInfo(response)` on a successful response: count the
request and record a `retry-after` header when one is present (without
setting the limited flag). -/
def updateRateLimitInfo (st : FetchState) (now : ℤ) (hdr : Option ℕ) :
    FetchState :=
  let rl := { st.rateLimitInfo with
    requestCount := st.rateLimitInfo.requestCount + 1
    lastRequest := some now }
  match hdr with
  | some s =>
      { st with rateLimitInfo :=
          { rl with
            retryAfter := some ((s : ℤ) * 1000)
            resetTime := some (now + (s : ℤ) * 1000) } }
  | none => { st with rateLimitInfo := rl }

/-- Result of one `getTopCryptos` call: the state after the call, the returned
payload, and how many network requests the call issued. -/
structure FetchOutcome where
  state : FetchState
  data : Payload
  attempts : ℕ

/-- The exit taken when the retry loop of `getTopCryptos` ends without a
successful response: `handleRateLimitError(lastError)` then cached data if
present, else the empty array. -/
def fetchFailureExit (st : FetchState) (now : ℤ) (key : String)
    (lastErr : ApiResponse) (made : ℕ) : FetchOutcome :=
  let st1 := handleRateLimitError st now lastErr
  match st1.apiCache key with
  | some e => ⟨st1, e.data, made⟩
  | none => ⟨st1, [], made⟩

/-- The retry loop of `getTopCryptos` (`for attempt = 1..maxRetries`), driven
by the list of responses the upstream would give to successive attempts
(a missing entry behaves as a network error).  `fuel` is the number of
attempts left, `made` the number already issued. -/
def fetchLoop (now : ℤ) (key : String) : FetchState → List ApiResponse →
    ℕ → ℕ → ApiResponse → FetchOutcome
  | st, _, 0, made, lastErr => fetchFailureExit st now key lastErr made
  | st, responses, fuel + 1, made, _ =>
    let r := responses.headD .netError
    let rest := responses.drop 1
    match r with
    | .success data hdr =>
        let st1 := updateRateLimitInfo st now hdr
        let st2 := { st1 with
          apiCache := fun k => if k = key then some ⟨data, now⟩
            else st1.apiCache k,
          lastSuccessfulFetch := some now }
        ⟨st2, data, made + 1⟩
    | .httpError status hdr =>
        if status = 429 then
          -- `handleRateLimitError(error)` then `break`, after which the
          -- post-loop failure exit calls `handleRateLimitError(lastError)`
          -- again with the same error.
          fetchFailureExit (handleRateLimitError st now (.httpError status hdr))
            now key (.httpError status hdr) (made + 1)
        else if 500 ≤ status then
          fetchLoop now key st rest fuel (made + 1) (.httpError status hdr)
        else fetchFailureExit st now key (.httpError status hdr) (made + 1)
    | .timeout => fetchLoop now key st rest fuel (made + 1) .timeout
    | .netError => fetchLoop now key st rest fuel (made + 1) .netError

/-- `getTopCryptos(limit = 200)` at one instant `now`, with the upstream
modelled by the list of responses it would give to successive attempts. -/
def getTopCryptos (st : FetchState) (now : ℤ) (limit : ℕ)
    (responses : List ApiResponse) : FetchOutcome :=
  let key := cacheKey limit
  let st1 := checkRateLimitExpiry st now
  if shouldUseCachedData st1 now ∧ (st1.apiCache key).isSome then
    ⟨st1, ((st1.apiCache key).map CacheEntry.data).getD [], 0⟩
  else if st1.rateLimitInfo.isLimited then
    match st1.apiCache key with
    | some e => ⟨st1, e.data, 0⟩
    | none => ⟨st1, [], 0⟩
  else fetchLoop now key st1 responses 3 0 .netError

/-! ## Technical analysis signal generation -/

structure SupportResistance where
  resistance : ℚ
  support : ℚ
  strength : String
deriving Repr, DecidableEq

/-- `calculateSupportResistance(coinData, prices)` restricted to the fields
the signal generation reads (`pivot`, `maxPrice`, `minPrice` are returned by
the source but never read by `calculateTechnicalAnalysis`). -/
def calculateSupportResistance (c : CoinData) (prices : List ℚ) :
    SupportResistance :=
  let currentPrice := jsOr c.current_price 0
  let high24h := jsOr c.high_24h 0
  let low24h := jsOr c.low_24h 0
  if prices.length < 20 then ⟨high24h, low24h, "weak"⟩
  else
    let pivot := (high24h + low24h + currentPrice) / 3
    let resistance1 := 2 * pivot - low24h
    let support1 := 2 * pivot - high24h
    let recent := lastN 20 prices
    let touchCount := (recent.filter (fun p =>
      jsAbs (p - resistance1) / resistance1 < 0.02 ∨
        jsAbs (p - support1) / support1 < 0.02)).length
    let strength :=
      if 3 ≤ touchCount then "strong"
      else if 2 ≤ touchCount then "moderate"
      else "weak"
    ⟨resistance1, support1, strength⟩

/-- The price series used by `calculateTechnicalAnalysis`: the stored history,
replaced by the filtered sparkline when the history has fewer than 20 points
and the sparkline has at least 20. -/
def taPrices (c : CoinData) (stored : List ℚ) : List ℚ :=
  if stored.length < 20 ∧ c.sparkline_in_7d.isSome ∧
      20 ≤ (sparklineFiltered c).length then
    sparklineFiltered c
  else stored

/-- The MACD block of the signal generation in `calculateTechnicalAnalysis`
(`if (macd) { ... }` with the two crossover pushes). -/
def macdSignalStrings : Option MacdResult → List String
  | some m =>
      if m.signal < m.macd ∧ 0 < m.histogram then
        ["🚀 MACD bullish crossover"]
      else if m.macd < m.signal ∧ m.histogram < 0 then
        ["🔻 MACD bearish crossover"]
      else []
  | none => []

/-- The `technicalSignals` list built by `calculateTechnicalAnalysis` (the
function returns no signals at all when fewer than 20 price points are
available).  The two Bollinger-band comparisons of the source
(`currentPrice <= bollinger.lower`, `currentPrice >= bollinger.upper`) involve
the real square root of the variance; they are abstracted as the two Boolean
parameters, quantified over in every theorem that uses this definition, which
only strengthens those theorems. -/
def technicalSignals (c : CoinData) (stored : List ℚ)
    (atLowerBand atUpperBand : Bool) : List String :=
  let prices := taPrices c stored
  if prices.length < 20 then []
  else
    let currentPrice := jsOr c.current_price 0
    let sma20 := calculateSMA prices 20
    let sma50 := calculateSMA prices 50
    let macd := calculateMACD prices 12 26
    let bollinger := calculateBollingerBands prices 20
    let sr := calculateSupportResistance c prices
    let maSignals : List String :=
      if !falsyQ sma20 && !falsyQ sma50 then
        if sma20.getD 0 < currentPrice ∧ sma50.getD 0 < sma20.getD 0 then
          ["📈 Bullish MA alignment (Price > SMA20 > SMA50)"]
        else if currentPrice < sma20.getD 0 ∧ sma20.getD 0 < sma50.getD 0 then
          ["📉 Bearish MA alignment (Price < SMA20 < SMA50)"]
        else []
      else []
    let bollingerSignals : List String :=
      if bollinger.isSome then
        if atLowerBand then
          ["🎯 Price at lower Bollinger Band - potential bounce"]
        else if atUpperBand then
          ["⚠️ Price at upper Bollinger Band - potential reversal"]
        else []
      else []
    let macdSignals : List String := macdSignalStrings macd
    let distanceToSupport :=
      if sr.support ≠ 0 then (currentPrice - sr.support) / sr.support * 100
      else 0
    let distanceToResistance :=
      if sr.resistance ≠ 0 then
        (sr.resistance - currentPrice) / currentPrice * 100
      else 0
    let srSignals : List String :=
      (if distanceToSupport < 2 ∧ 0 < distanceToSupport then
        ["💪 Near " ++ sr.strength ++ " support level"]
      else []) ++
      (if distanceToResistance < 2 ∧ 0 < distanceToResistance then
        ["🚧 Near " ++ sr.strength ++ " resistance level"]
      else [])
    maSignals ++ bollingerSignals ++ macdSignals ++ srSignals

/-! ## Binary64 (IEEE-754 double) model

The source executes its arithmetic in JavaScript numbers, i.e. IEEE-754
binary64 with round-to-nearest, ties-to-even.  The rational definitions above
idealize that arithmetic as exact; for the MACD signal line the difference is
observable, so this section models binary64 exactly.  A double is a sign, a
53-bit integer mantissa and a power-of-two exponent; `+`, `-`, `*`, `/` are
the exact operation followed by rounding to 53 significant bits (IEEE
requires exactly this).  Exponents are unbounded (no overflow/underflow),
which agrees with binary64 throughout the normal range all values here stay
in.  Everything is integer arithmetic, so the kernel can evaluate it. -/

/-- Number of bits of `n` (`0` for `0`), with explicit fuel. -/
def bitlen : ℕ → ℕ → ℕ
  | 0, _ => 0
  | f + 1, n => if n = 0 then 0 else bitlen f (n / 2) + 1

/-- Fuel sufficient for every integer arising in these computations. -/
def bitFuel : ℕ := 512

/-- Round `n / d` to the nearest integer, ties to even. -/
def rdivNE (n d : ℕ) : ℕ :=
  let q := n / d
  let r := n % d
  if d < 2 * r then q + 1
  else if 2 * r < d then q
  else if q % 2 = 0 then q else q + 1

/-- Normalize a nonnegative integer mantissa `m · 2^e` to 53 significant
bits, rounding to nearest, ties to even. -/
def normUp (m : ℕ) (e : ℤ) : ℕ × ℤ :=
  if m = 0 then (0, 0)
  else
    let L := bitlen bitFuel m
    if L ≤ 53 then (m * 2 ^ (53 - L), e - (53 - L))
    else
      let k := L - 53
      let m2 := rdivNE m (2 ^ k)
      let e2 := e + k
      if m2 = 2 ^ 53 then (2 ^ 52, e2 + 1) else (m2, e2)

/-- A binary64 value `(-1)^sign · mant · 2^exp`, with `mant = 0` or
`2^52 ≤ mant < 2^53`. -/
structure FP where
  sign : Bool
  mant : ℕ
  exp : ℤ
deriving Repr, DecidableEq

def fpZero : FP := ⟨false, 0, 0⟩

/-- The exact rational value of a binary64 datum. -/
def FP.toRat (a : FP) : ℚ :=
  (if a.sign then -(a.mant : ℚ) else (a.mant : ℚ)) *
    (if 0 ≤ a.exp then (2 : ℚ) ^ a.exp.toNat else 1 / 2 ^ (-a.exp).toNat)

/-- Round the positive rational `n / d` to binary64 (correct rounding; this
is also IEEE division of exactly-representable `n` by `d`). -/
def mkFrac (n d : ℕ) : FP :=
  let e0 : ℤ := (bitlen bitFuel n : ℤ) - (bitlen bitFuel d : ℤ)
  let ok := if 0 ≤ e0 then d * 2 ^ e0.toNat ≤ n else d ≤ n * 2 ^ (-e0).toNat
  let e := if ok then e0 else e0 - 1
  let s : ℤ := 52 - e
  let m := if 0 ≤ s then rdivNE (n * 2 ^ s.toNat) d
    else rdivNE n (d * 2 ^ (-s).toNat)
  let ee := e - 52
  if m = 2 ^ 53 then ⟨false, 2 ^ 52, ee + 1⟩ else ⟨false, m, ee⟩

def fpOfNat (n : ℕ) : FP :=
  let p := normUp n 0
  ⟨false, p.1, p.2⟩

def fneg (a : FP) : FP := if a.mant = 0 then a else ⟨!a.sign, a.mant, a.exp⟩

/-- JavaScript `Math.abs` on a double (exact). -/
def fabs (a : FP) : FP := ⟨false, a.mant, a.exp⟩

/-- Binary64 multiplication: exact product, then one rounding. -/
def fmul (a b : FP) : FP :=
  if a.mant = 0 ∨ b.mant = 0 then fpZero
  else
    let p := normUp (a.mant * b.mant) (a.exp + b.exp)
    ⟨xor a.sign b.sign, p.1, p.2⟩

/-- Binary64 division: correctly rounded quotient. -/
def fdiv (a b : FP) : FP :=
  if a.mant = 0 then fpZero
  else
    let r := mkFrac a.mant b.mant
    ⟨xor a.sign b.sign, r.mant, r.exp + a.exp - b.exp⟩

/-- Exact magnitude comparison `mant_a · 2^ea ≥ mant_b · 2^eb`. -/
def magGe (ma : ℕ) (ea : ℤ) (mb : ℕ) (eb : ℤ) : Bool :=
  let e := min ea eb
  mb * 2 ^ (eb - e).toNat ≤ ma * 2 ^ (ea - e).toNat

/-- Binary64 addition: exact sum over a common exponent, then one
rounding. -/
def fadd (a b : FP) : FP :=
  if a.mant = 0 then b
  else if b.mant = 0 then a
  else
    let e := min a.exp b.exp
    let ma := a.mant * 2 ^ (a.exp - e).toNat
    let mb := b.mant * 2 ^ (b.exp - e).toNat
    if a.sign = b.sign then
      let p := normUp (ma + mb) e
      ⟨a.sign, p.1, p.2⟩
    else if mb ≤ ma then
      if ma = mb then fpZero
      else
        let p := normUp (ma - mb) e
        ⟨a.sign, p.1, p.2⟩
    else
      let p := normUp (mb - ma) e
      ⟨b.sign, p.1, p.2⟩

def fsub (a b : FP) : FP := fadd a (fneg b)

/-- Exact value comparison of two binary64 data (JavaScript `<`). -/
def fpLt (a b : FP) : Bool :=
  let ia : ℤ := if a.sign then -(a.mant : ℤ) else (a.mant : ℤ)
  let ib : ℤ := if b.sign then -(b.mant : ℤ) else (b.mant : ℤ)
  let e := min a.exp b.exp
  ia * 2 ^ (a.exp - e).toNat < ib * 2 ^ (b.exp - e).toNat

/-- JavaScript falsiness of a number-or-null double (`!x`). -/
def fpFalsy : Option FP → Bool
  | none => true
  | some x => x.mant = 0

/-- JavaScript `x || d` on a double field. -/
def jsOrF (x : Option FP) (d : FP) : FP :=
  match x with
  | none => d
  | some v => if v.mant = 0 then d else v

/-! ## The indicator pipeline under binary64 arithmetic -/

def lastNF (n : ℕ) (l : List FP) : List FP := l.drop (l.length - n)

/-- `calculateSMA` under binary64: left-fold sum of the last `period` prices
(the source's `reduce(..., 0)`), then one division. -/
def calculateSMA_fp (prices : List FP) (period : ℕ) : Option FP :=
  if prices.length < period then none
  else some (fdiv ((lastNF period prices).foldl fadd fpZero) (fpOfNat period))

/-- `calculateEMA` under binary64: seed from the left-fold average of the
first `period` prices, then the recurrence
`(p * multiplier) + (ema * (1 - multiplier))` with each operation rounded. -/
def calculateEMA_fp (prices : List FP) (period : ℕ) : Option FP :=
  if prices.length < period then none
  else
    let multiplier := fdiv (fpOfNat 2) (fadd (fpOfNat period) (fpOfNat 1))
    let seed := fdiv ((prices.take period).foldl fadd fpZero) (fpOfNat period)
    some ((prices.drop period).foldl
      (fun ema p => fadd (fmul p multiplier)
        (fmul ema (fsub (fpOfNat 1) multiplier))) seed)

structure MacdFP where
  macd : FP
  signal : FP
  histogram : FP
deriving Repr, DecidableEq

/-- `calculateMACD` under binary64: the signal line is the rounded blend
`(macdLine * 0.2) + (macdLine * 0.8)` with `0.2` and `0.8` the binary64
literals `fl(1/5)` and `fl(4/5)`. -/
def calculateMACD_fp (prices : List FP) (fastPeriod : ℕ := 12)
    (slowPeriod : ℕ := 26) : Option MacdFP :=
  if prices.length < slowPeriod then none
  else
    let fastEMA := calculateEMA_fp prices fastPeriod
    let slowEMA := calculateEMA_fp prices slowPeriod
    if fpFalsy fastEMA || fpFalsy slowEMA then none
    else
      let macdLine := fsub (fastEMA.getD fpZero) (slowEMA.getD fpZero)
      let signalLine := fadd (fmul macdLine (mkFrac 1 5))
        (fmul macdLine (mkFrac 4 5))
      let histogram := fsub macdLine signalLine
      some ⟨macdLine, signalLine, histogram⟩

/-- `calculateBollingerBands` under binary64, restricted as in the rational
model to (centerline, variance); `Math.pow(x, 2)` is modelled as `x * x`
(its value feeds only the square root behind the abstracted band
comparisons). -/
def calculateBollingerBands_fp (prices : List FP) (period : ℕ := 20) :
    Option (FP × FP) :=
  if prices.length < period then none
  else
    let sma := calculateSMA_fp prices period
    if fpFalsy sma then none
    else
      let smaV := sma.getD fpZero
      let variance := fdiv ((lastNF period prices).foldl
        (fun acc p => fadd acc (fmul (fsub p smaV) (fsub p smaV))) fpZero)
        (fpOfNat period)
      some (smaV, variance)

/-- The per-asset record under binary64, with the fields the
technical-analysis step reads. -/
structure CoinFP where
  id : String := ""
  current_price : Option FP := none
  high_24h : Option FP := none
  low_24h : Option FP := none
  sparkline_in_7d : Option (List (Option FP)) := none
deriving Repr, DecidableEq

def sparklineFiltered_fp (c : CoinFP) : List FP :=
  match c.sparkline_in_7d with
  | none => []
  | some l => l.filterMap id

def taPrices_fp (c : CoinFP) (stored : List FP) : List FP :=
  if stored.length < 20 ∧ c.sparkline_in_7d.isSome ∧
      20 ≤ (sparklineFiltered_fp c).length then
    sparklineFiltered_fp c
  else stored

structure SupportResistanceFP where
  resistance : FP
  support : FP
  strength : String
deriving Repr, DecidableEq

/-- `calculateSupportResistance` under binary64 (pivot, levels, touch count,
strength tier). -/
def calculateSupportResistance_fp (c : CoinFP) (prices : List FP) :
    SupportResistanceFP :=
  let currentPrice := jsOrF c.current_price fpZero
  let high24h := jsOrF c.high_24h fpZero
  let low24h := jsOrF c.low_24h fpZero
  if prices.length < 20 then ⟨high24h, low24h, "weak"⟩
  else
    let pivot := fdiv (fadd (fadd high24h low24h) currentPrice) (fpOfNat 3)
    let resistance1 := fsub (fmul (fpOfNat 2) pivot) low24h
    let support1 := fsub (fmul (fpOfNat 2) pivot) high24h
    let recent := lastNF 20 prices
    let touchCount := (recent.filter (fun p =>
      fpLt (fdiv (fabs (fsub p resistance1)) resistance1) (mkFrac 1 50) ||
        fpLt (fdiv (fabs (fsub p support1)) support1) (mkFrac 1 50))).length
    let strength :=
      if 3 ≤ touchCount then "strong"
      else if 2 ≤ touchCount then "moderate"
      else "weak"
    ⟨resistance1, support1, strength⟩

/-- The MACD block of the signal generation under binary64; comparisons of
doubles are exact value comparisons. -/
def macdSignalStrings_fp : Option MacdFP → List String
  | some m =>
      if fpLt m.signal m.macd && fpLt fpZero m.histogram then
        ["🚀 MACD bullish crossover"]
      else if fpLt m.macd m.signal && fpLt m.histogram fpZero then
        ["🔻 MACD bearish crossover"]
      else []
  | none => []

/-- The `technicalSignals` list of `calculateTechnicalAnalysis` under
binary64.  As in the rational model, the two Bollinger band comparisons
(which involve `Math.sqrt`) are abstracted as Boolean parameters. -/
def technicalSignals_fp (c : CoinFP) (stored : List FP)
    (atLowerBand atUpperBand : Bool) : List String :=
  let prices := taPrices_fp c stored
  if prices.length < 20 then []
  else
    let currentPrice := jsOrF c.current_price fpZero
    let sma20 := calculateSMA_fp prices 20
    let sma50 := calculateSMA_fp prices 50
    let macd := calculateMACD_fp prices 12 26
    let bollinger := calculateBollingerBands_fp prices 20
    let sr := calculateSupportResistance_fp c prices
    let maSignals : List String :=
      if !fpFalsy sma20 && !fpFalsy sma50 then
        if fpLt (sma20.getD fpZero) currentPrice &&
            fpLt (sma50.getD fpZero) (sma20.getD fpZero) then
          ["📈 Bullish MA alignment (Price > SMA20 > SMA50)"]
        else if fpLt currentPrice (sma20.getD fpZero) &&
            fpLt (sma20.getD fpZero) (sma50.getD fpZero) then
          ["📉 Bearish MA alignment (Price < SMA20 < SMA50)"]
        else []
      else []
    let bollingerSignals : List String :=
      if bollinger.isSome then
        if atLowerBand then
          ["🎯 Price at lower Bollinger Band - potential bounce"]
        else if atUpperBand then
          ["⚠️ Price at upper Bollinger Band - potential reversal"]
        else []
      else []
    let macdSignals : List String := macdSignalStrings_fp macd
    let distanceToSupport :=
      if sr.support.mant ≠ 0 then
        fmul (fdiv (fsub currentPrice sr.support) sr.support) (fpOfNat 100)
      else fpZero
    let distanceToResistance :=
      if sr.resistance.mant ≠ 0 then
        fmul (fdiv (fsub sr.resistance currentPrice) currentPrice)
          (fpOfNat 100)
      else fpZero
    let srSignals : List String :=
      (if fpLt distanceToSupport (fpOfNat 2) &&
          fpLt fpZero distanceToSupport then
        ["💪 Near " ++ sr.strength ++ " support level"]
      else []) ++
      (if fpLt distanceToResistance (fpOfNat 2) &&
          fpLt fpZero distanceToResistance then
        ["🚧 Near " ++ sr.strength ++ " resistance level"]
      else [])
    maSignals ++ bollingerSignals ++ macdSignals ++ srSignals

/-! ## Concrete instances used by the theorems -/

/-- A 16-price sequence whose first 14 deltas are one loss and 13 flats while
its most recent 14 deltas are 13 flats and one gain. -/
def rsiWindowExample : List ℚ :=
  [100, 86, 86, 86, 86, 86, 86, 86, 86, 86, 86, 86, 86, 86, 86, 100]

/-- A concrete coin whose raw HTF score is 13: large cap, healthy volume
ratio, moderate monthly growth and a top-10 rank. -/
def htfWitnessCoin : CoinData :=
  { market_cap := some 2000000000
    total_volume := some 30000000
    price_change_percentage_30d_in_currency := some 6
    market_cap_rank := some 10 }

/-- A concrete coin with market cap 5,000,000 and 24h volume 50,000 (both
below the HTF liquidity minimums), monthly change +6%, rank 60. -/
def htfPenaltyCoin : CoinData :=
  { market_cap := some 5000000
    total_volume := some 50000
    price_change_percentage_30d_in_currency := some 6
    market_cap_rank := some 60 }

/-- 26 exactly-representable prices (twelve 3s then fourteen 12s) whose
binary64 MACD line rounds its 0.2/0.8 blend upward. -/
def floatPrices : List FP :=
  List.replicate 12 (fpOfNat 3) ++ List.replicate 14 (fpOfNat 12)

/-- A coin record (price 12, daily range [2, 13]) whose technical-analysis
step, run on `floatPrices` under binary64, reaches the MACD block. -/
def floatCoin : CoinFP :=
  { id := "sample"
    current_price := some (fpOfNat 12)
    high_24h := some (fpOfNat 13)
    low_24h := some (fpOfNat 2) }

/-- A fetcher state that is rate limited with reset time 100000 ms, has a
successful fetch recorded at 50000 ms, and holds a cache entry for the
default key. -/
def c3CacheState : FetchState :=
  { rateLimitInfo :=
      { isLimited := true
        resetTime := some 100000
        retryAfter := some 60000 }
    lastSuccessfulFetch := some 50000
    apiCache := fun k =>
      if k = "top_cryptos_200" then some ⟨[1, 2, 3], 50000⟩ else none }

/-! ## Helper lemmas -/

theorem jsAbs_nonneg (x : ℚ) : 0 ≤ jsAbs x := by
  unfold jsAbs; split <;> linarith

theorem losses_nonneg {prices : List ℚ} {period : ℕ} :
    0 ≤ avgLoss prices period := by
  unfold avgLoss
  apply div_nonneg _ (by positivity)
  apply List.sum_nonneg
  intro x hx
  have hx' := List.take_subset _ _ hx
  unfold losses at hx'
  rcases List.mem_map.1 hx' with ⟨d, _, rfl⟩
  split
  · exact jsAbs_nonneg d
  · exact le_refl 0

theorem gains_nonneg {prices : List ℚ} {period : ℕ} :
    0 ≤ avgGain prices period := by
  unfold avgGain
  apply div_nonneg _ (by positivity)
  apply List.sum_nonneg
  intro x hx
  have hx' := List.take_subset _ _ hx
  unfold gains at hx'
  rcases List.mem_map.1 hx' with ⟨d, _, rfl⟩
  split
  · linarith [show (0:ℚ) < d from by assumption]
  · exact le_refl 0

/-! ## C6 -/

/-- C6: every indicator returns the explicit insufficient-data result (`none`)
on a price sequence shorter than its required window — fewer than `period + 1`
points for the RSI oscillator, fewer than `period` points for the simple and
exponential moving averages, fewer than the slow period for the MACD
convergence/divergence triple, and fewer than 20 points for the Bollinger
volatility bands. -/
theorem indicators_insufficient_data :
    (∀ (prices : List ℚ) (period : ℕ), prices.length < period + 1 →
      calculateRSI prices period = none) ∧
    (∀ (prices : List ℚ) (period : ℕ), prices.length < period →
      calculateSMA prices period = none) ∧
    (∀ (prices : List ℚ) (period : ℕ), prices.length < period →
      calculateEMA prices period = none) ∧
    (∀ (prices : List ℚ) (fast slow : ℕ), prices.length < slow →
      calculateMACD prices fast slow = none) ∧
    (∀ (prices : List ℚ), prices.length < 20 →
      calculateBollingerBands prices 20 = none) := by
  refine ⟨?_, ?_, ?_, ?_, ?_⟩
  · intro prices period h; simp [calculateRSI, h]
  · intro prices period h; simp [calculateSMA, h]
  · intro prices period h; simp [calculateEMA, h]
  · intro prices fast slow h; simp [calculateMACD, h]
  · intro prices h; simp [calculateBollingerBands, h]

/-- C6 witness: each insufficient-data case evaluated at a concrete short
sequence. -/
theorem indicators_insufficient_data_witness :
    (([1] : List ℚ).length < 14 + 1 ∧ calculateRSI [1] 14 = none) ∧
    (([1] : List ℚ).length < 20 ∧ calculateSMA [1] 20 = none) ∧
    (([1] : List ℚ).length < 12 ∧ calculateEMA [1] 12 = none) ∧
    (([1] : List ℚ).length < 26 ∧ calculateMACD [1] 12 26 = none) ∧
    (([1] : List ℚ).length < 20 ∧ calculateBollingerBands [1] 20 = none) :=
  ⟨⟨by decide, indicators_insufficient_data.1 [1] 14 (by decide)⟩,
    ⟨by decide, indicators_insufficient_data.2.1 [1] 20 (by decide)⟩,
    ⟨by decide, indicators_insufficient_data.2.2.1 [1] 12 (by decide)⟩,
    ⟨by decide, indicators_insufficient_data.2.2.2.1 [1] 12 26 (by decide)⟩,
    ⟨by decide, indicators_insufficient_data.2.2.2.2 [1] (by decide)⟩⟩

/-! ## C7 -/

/-- C7: on every price sequence long enough for the RSI oscillator (at least
`period + 1` points, with a positive period as in the default 14), the
returned value lies within `[0, 100]`, and it is exactly 100 whenever the
average loss over the window is zero. -/
theorem rsi_bounds (prices : List ℚ) (period : ℕ) (_hp : 1 ≤ period)
    (hl : period + 1 ≤ prices.length) :
    ∃ r, calculateRSI prices period = some r ∧ 0 ≤ r ∧ r ≤ 100 ∧
      (avgLoss prices period = 0 → r = 100) := by
  unfold calculateRSI
  rw [if_neg (by omega)]
  by_cases hL : avgLoss prices period = 0
  · exact ⟨100, by simp [hL], by norm_num, le_refl _, fun _ => rfl⟩
  · rw [if_neg hL]
    have h1 : (0:ℚ) < avgLoss prices period :=
      lt_of_le_of_ne losses_nonneg (Ne.symm hL)
    have h2 : (0:ℚ) ≤ avgGain prices period / avgLoss prices period :=
      div_nonneg gains_nonneg h1.le
    have h3 : (100:ℚ) / (1 + avgGain prices period / avgLoss prices period)
        ≤ 100 := by
      apply div_le_self (by norm_num)
      linarith
    have h4 : (0:ℚ) ≤
        100 / (1 + avgGain prices period / avgLoss prices period) := by
      apply div_nonneg (by norm_num)
      linarith
    exact ⟨_, rfl, by linarith, by linarith, fun h => absurd h hL⟩

/-- C7 witness: a constant 15-point sequence has zero average loss and RSI
exactly 100. -/
theorem rsi_bounds_witness :
    1 ≤ 14 ∧ 14 + 1 ≤ (List.replicate 15 (7:ℚ)).length ∧
    ∃ r, calculateRSI (List.replicate 15 (7:ℚ)) 14 = some r ∧ 0 ≤ r ∧
      r ≤ 100 ∧ (avgLoss (List.replicate 15 (7:ℚ)) 14 = 0 → r = 100) :=
  ⟨by decide, by decide,
    rsi_bounds (List.replicate 15 (7:ℚ)) 14 (by decide) (by decide)⟩

/-! ## C8 -/

theorem zipWith_take_right {α β γ : Type} (f : α → β → γ) :
    ∀ (a : List α) (b : List β) (m : ℕ), a.length ≤ m →
      List.zipWith f a (b.take m) = List.zipWith f a b
  | [], _, _, _ => by simp
  | _ :: _, _, 0, h => by simp at h
  | _ :: _, [], _ + 1, _ => by simp
  | x :: a, y :: b, m + 1, h => by
      simpa using zipWith_take_right f a b m (by simpa using h)

theorem deltas_take (prices : List ℚ) (p : ℕ) :
    deltas (prices.take (p + 1)) = (deltas prices).take p := by
  unfold deltas
  rw [List.take_zipWith, List.drop_take]
  simp only [Nat.add_sub_cancel]
  rw [zipWith_take_right _ _ _ (p + 1)
    (le_trans (List.length_take_le _ _) (by omega)),
    zipWith_take_right _ _ _ p (List.length_take_le _ _)]

theorem avgGain_take (prices : List ℚ) (p : ℕ) :
    avgGain (prices.take (p + 1)) p = avgGain prices p := by
  unfold avgGain gains
  rw [deltas_take, ← List.map_take, List.take_take, min_self, List.map_take]

theorem avgLoss_take (prices : List ℚ) (p : ℕ) :
    avgLoss (prices.take (p + 1)) p = avgLoss prices p := by
  unfold avgLoss losses
  rw [deltas_take, ← List.map_take, List.take_take, min_self, List.map_take]

/-- C8 counterexample: on a 16-point sequence (more than `period + 1 = 15`
points) the source RSI averages the FIRST 14 deltas, not the most recent 14:
it returns 0 while the oscillator computed on the last 15 prices (i.e. over
the most recent 14 deltas) returns 100. -/
theorem rsi_recent_window_counterexample :
    14 + 1 < rsiWindowExample.length ∧
    calculateRSI rsiWindowExample 14 = some 0 ∧
    calculateRSI (lastN (14 + 1) rsiWindowExample) 14 = some 100 ∧
    calculateRSI rsiWindowExample 14 ≠
      calculateRSI (lastN (14 + 1) rsiWindowExample) 14 := by
  refine ⟨by decide, ?_, ?_, ?_⟩
  · norm_num [calculateRSI, avgGain, avgLoss, gains, losses, deltas,
      rsiWindowExample, jsAbs]
  · norm_num [calculateRSI, avgGain, avgLoss, gains, losses, deltas,
      rsiWindowExample, jsAbs, lastN]
  · norm_num [calculateRSI, avgGain, avgLoss, gains, losses, deltas,
      rsiWindowExample, jsAbs, lastN]

/-- C8 amended: for every price sequence with at least `period + 1` points the
oscillator's average gain and average loss are computed over the FIRST
`period` deltas of the sequence (the deltas of its first `period + 1`
prices) — the oscillator result is unchanged by dropping everything after the
first `period + 1` prices.  It agrees with the most-recent-deltas reading
only when the sequence has exactly `period + 1` points. -/
theorem rsi_first_window (prices : List ℚ) (period : ℕ)
    (h : period + 1 ≤ prices.length) :
    calculateRSI prices period = calculateRSI (prices.take (period + 1))
      period := by
  unfold calculateRSI
  have hlen : (prices.take (period + 1)).length = period + 1 := by
    rw [List.length_take]; omega
  have h1 : ¬(prices.length < period + 1) := by omega
  have h2 : ¬((prices.take (period + 1)).length < period + 1) := by omega
  rw [if_neg h1, if_neg h2, avgGain_take, avgLoss_take]

/-- C8 amended witness: the 16-point counterexample sequence instantiates the
first-window equation. -/
theorem rsi_first_window_witness :
    14 + 1 ≤ rsiWindowExample.length ∧
    calculateRSI rsiWindowExample 14 =
      calculateRSI (rsiWindowExample.take (14 + 1)) 14 :=
  ⟨by decide, rsi_first_window rsiWindowExample 14 (by decide)⟩

/-! ## C5 -/

theorem jsOr_some_zero (v : ℚ) : jsOr (some v) 0 = v := by
  simp only [jsOr]
  split_ifs with h
  · exact h.symm
  · rfl

theorem pushPrice_length_le {hist : List ℚ} (p : ℚ) (h : hist.length ≤ 50) :
    (pushPrice hist p).length ≤ 50 := by
  simp only [pushPrice]
  split
  · simpa using h
  · rename_i hc
    simp only [List.length_append, List.length_cons, List.length_nil] at hc ⊢
    omega

theorem foldl_pushPrice_eq :
    ∀ (vs acc : List ℚ), acc.length ≤ 50 →
      vs.foldl pushPrice acc = (acc ++ vs).drop (acc.length + vs.length - 50)
  | [], acc, h => by
      simp [Nat.sub_eq_zero_of_le h]
  | v :: vs, acc, h => by
      rw [List.foldl_cons, foldl_pushPrice_eq vs _ (pushPrice_length_le v h)]
      simp only [pushPrice]
      by_cases hc : 50 < (acc ++ [v]).length
      · rw [if_pos hc]
        have h50 : acc.length = 50 := by
          simp only [List.length_append, List.length_cons,
            List.length_nil] at hc
          omega
        have hl : ((acc ++ [v]).drop 1).length = acc.length := by simp
        rw [hl,
          ← List.drop_append_of_le_length (show 1 ≤ (acc ++ [v]).length by
            simp),
          List.drop_drop, List.append_assoc, List.singleton_append]
        congr 1
        simp only [List.length_cons]
        omega
      · rw [if_neg hc]
        rw [List.append_assoc, List.singleton_append]
        simp only [List.length_append, List.length_cons, List.length_nil]
          at hc ⊢
        congr 1
        omega

theorem updatePriceHistory_bound :
    ∀ (coins : List CoinData) (store : String → List ℚ),
      (∀ k, (store k).length ≤ 50) → ∀ k,
      ((updatePriceHistory store coins) k).length ≤ 50
  | [], _, h, k => h k
  | c :: cs, store, h, k => by
      have hstep : ∀ k2,
          ((fun k3 => if k3 = c.id then
              pushPrice (store c.id) (jsOr c.current_price 0)
            else store k3) k2).length ≤ 50 := by
        intro k2
        by_cases hk : k2 = c.id
        · simp only [hk, if_pos rfl]
          exact pushPrice_length_le _ (h c.id)
        · simp only [if_neg hk]
          exact h k2
      exact updatePriceHistory_bound cs _ hstep k

theorem cycles_bound :
    ∀ (cycles : List (List CoinData)) (store : String → List ℚ),
      (∀ k, (store k).length ≤ 50) → ∀ k,
      ((cycles.foldl updatePriceHistory store) k).length ≤ 50
  | [], _, h, k => h k
  | c :: cs, store, h, k =>
      cycles_bound cs _ (updatePriceHistory_bound c store h) k

theorem ingest_single (a : String) (v : ℚ) (store : String → List ℚ) :
    updatePriceHistory store [{ id := a, current_price := some v }] a =
      pushPrice (store a) v := by
  simp [updatePriceHistory, jsOr_some_zero]

theorem ingest_series (a : String) :
    ∀ (vs : List ℚ) (store : String → List ℚ),
      ((vs.map (fun v =>
        [({ id := a, current_price := some v } : CoinData)])).foldl
          updatePriceHistory store) a = vs.foldl pushPrice (store a)
  | [], _ => rfl
  | v :: vs, store => by
      rw [List.map_cons, List.foldl_cons, ingest_series a vs _,
        List.foldl_cons, ingest_single]

/-- C5: the price history store is a bounded FIFO — starting from the empty
store, after any sequence of ingestion cycles every per-asset series holds at
most 50 entries; and ingesting 60 values `v1..v60` for one asset starting
from the empty store leaves exactly the last 50, `[v11..v60]` (the 10 oldest
evicted first). -/
theorem price_history_bounded_fifo :
    (∀ (cycles : List (List CoinData)) (a : String),
      ((cycles.foldl updatePriceHistory (fun _ => [])) a).length ≤ 50) ∧
    (∀ (a : String) (vs : List ℚ), vs.length = 60 →
      ((vs.map (fun v =>
        [({ id := a, current_price := some v } : CoinData)])).foldl
          updatePriceHistory (fun _ => [])) a = vs.drop 10) := by
  constructor
  · intro cycles a
    exact cycles_bound cycles _ (fun _ => by simp) a
  · intro a vs h
    rw [ingest_series, foldl_pushPrice_eq vs [] (by simp)]
    simp [h]

/-- C5 witness: the FIFO equation instantiated on the 60 values `0..59` for
one concrete asset. -/
theorem price_history_bounded_fifo_witness :
    ((List.range 60).map (fun n : ℕ => (n : ℚ))).length = 60 ∧
    ((((List.range 60).map (fun n : ℕ => (n : ℚ))).map (fun v =>
      [({ id := "bitcoin", current_price := some v } : CoinData)])).foldl
        updatePriceHistory (fun _ => [])) "bitcoin" =
      ((List.range 60).map (fun n : ℕ => (n : ℚ))).drop 10 :=
  ⟨by simp, price_history_bounded_fifo.2 "bitcoin"
    ((List.range 60).map (fun n : ℕ => (n : ℚ))) (by simp)⟩

/-! ## C2 -/

theorem htf_floor_core (prev : List ℚ) (cur : ℚ)
    (hq : 3 ≤ ((retainedScores prev cur).filter (fun s => 5 ≤ s)).length)
    (hc : 4 ≤ cur) :
    5 ≤ htfStabilityScore prev cur := by
  simp only [htfStabilityScore]
  rw [if_pos ⟨hq, hc⟩]
  set x : ℚ := _
  show 5 ≤ (jsRound (max x 5 * 10) : ℚ) / 10
  have h50 : (50 : ℚ) ≤ max x 5 * 10 := by
    have := le_max_right x 5
    linarith
  have hfl : (50 : ℤ) ≤ jsRound (max x 5 * 10) := by
    unfold jsRound
    rw [Int.le_floor]
    push_cast
    linarith
  have hcast : (50 : ℚ) ≤ (jsRound (max x 5 * 10) : ℚ) := by exact_mod_cast hfl
  linarith

/-- C2: whenever at least 3 of the retained raw HTF scores (the last at most
10, including the current one) are at least 5 and the current raw score is at
least 4, the numeric score returned by `analyzeHTFInvestmentWithStability` is
at least 5.0, regardless of the averaging and bonus outcome. -/
theorem htf_floor_rule (c : CoinData) (stored prevScores : List ℚ)
    (_hk : prevScores.length ≤ 10)
    (hq : 3 ≤ ((retainedScores prevScores
      (analyzeHTFInvestment c stored)).filter (fun s => 5 ≤ s)).length)
    (hc : 4 ≤ analyzeHTFInvestment c stored) :
    5 ≤ analyzeHTFInvestmentWithStability c stored prevScores :=
  htf_floor_core _ _ hq hc

/-- C2 witness: with prior retained scores `[5, 5, 5]` and the concrete coin
above (raw score 13 ≥ 4, four retained scores ≥ 5), the published score is at
least 5. -/
theorem htf_floor_rule_witness :
    ([5, 5, 5] : List ℚ).length ≤ 10 ∧
    3 ≤ ((retainedScores [5, 5, 5]
      (analyzeHTFInvestment htfWitnessCoin [])).filter
        (fun s => 5 ≤ s)).length ∧
    4 ≤ analyzeHTFInvestment htfWitnessCoin [] ∧
    5 ≤ analyzeHTFInvestmentWithStability htfWitnessCoin [] [5, 5, 5] := by
  have hval : analyzeHTFInvestment htfWitnessCoin [] = 13 := by
    norm_num [analyzeHTFInvestment, htfPreScore, htfBonuses, htfRsiPrices,
      sparklineFiltered, htfWitnessCoin, jsOr, jsAbs, calculateRSI]
  have hq : 3 ≤ ((retainedScores [5, 5, 5]
      (analyzeHTFInvestment htfWitnessCoin [])).filter
        (fun s => 5 ≤ s)).length := by
    rw [hval]
    norm_num [retainedScores]
  have hc : 4 ≤ analyzeHTFInvestment htfWitnessCoin [] := by
    rw [hval]; norm_num
  exact ⟨by norm_num, hq, hc,
    htf_floor_rule htfWitnessCoin [] [5, 5, 5] (by norm_num) hq hc⟩

/-! ## C9 -/

theorem htfBonuses_bounds (c : CoinData) (s : ℚ) :
    s ≤ htfBonuses c s ∧ htfBonuses c s ≤ s + 3 := by
  simp only [htfBonuses]
  split_ifs <;> constructor <;> linarith

/-- C9 counterexample: for the coin above the score accumulated before the
liquidity filter is 4 and `max(0, 4 - 6) = 0`, but `analyzeHTFInvestment`
returns 1, because the source applies two further trend bonuses after the
filter — so the classifier does not return `max(0, s - 6)`. -/
theorem htf_liquidity_counterexample :
    jsOr htfPenaltyCoin.market_cap 1 = 5000000 ∧
    jsOr htfPenaltyCoin.total_volume 0 = 50000 ∧
    htfPreScore htfPenaltyCoin [] = 4 ∧
    max 0 (htfPreScore htfPenaltyCoin [] - 6) = 0 ∧
    analyzeHTFInvestment htfPenaltyCoin [] = 1 ∧
    analyzeHTFInvestment htfPenaltyCoin [] ≠
      max 0 (htfPreScore htfPenaltyCoin [] - 6) := by
  refine ⟨by norm_num [htfPenaltyCoin, jsOr], by norm_num [htfPenaltyCoin, jsOr],
    ?_, ?_, ?_, ?_⟩ <;>
    norm_num [analyzeHTFInvestment, htfPreScore, htfBonuses, htfRsiPrices,
      sparklineFiltered, htfPenaltyCoin, jsOr, jsAbs, calculateRSI]

/-- C9 amended: for every asset snapshot with market capitalization 5,000,000
and 24h volume 50,000 the liquidity filter reduces the accumulated score by
exactly 6 points, floored at 0, and the classifier returns that filtered
value plus the two post-filter trend bonuses — between the filtered value and
the filtered value plus 3. -/
theorem htf_liquidity_penalty (c : CoinData) (stored : List ℚ)
    (hmc : jsOr c.market_cap 1 = 5000000)
    (_hv : jsOr c.total_volume 0 = 50000) :
    analyzeHTFInvestment c stored =
      htfBonuses c (max 0 (htfPreScore c stored - 6)) ∧
    max 0 (htfPreScore c stored - 6) ≤ analyzeHTFInvestment c stored ∧
    analyzeHTFInvestment c stored ≤ max 0 (htfPreScore c stored - 6) + 3 := by
  have hcond : jsOr c.market_cap 1 < 100000000 ∨
      jsOr c.total_volume 0 < 5000000 := by
    left; rw [hmc]; norm_num
  have heq : analyzeHTFInvestment c stored =
      htfBonuses c (max 0 (htfPreScore c stored - 6)) := by
    simp only [analyzeHTFInvestment]
    rw [if_pos hcond]
  exact ⟨heq, heq ▸ (htfBonuses_bounds c _).1, heq ▸ (htfBonuses_bounds c _).2⟩

/-- C9 amended witness: the amended equation instantiated at the concrete
penalty coin. -/
theorem htf_liquidity_penalty_witness :
    jsOr htfPenaltyCoin.market_cap 1 = 5000000 ∧
    jsOr htfPenaltyCoin.total_volume 0 = 50000 ∧
    analyzeHTFInvestment htfPenaltyCoin [] =
      htfBonuses htfPenaltyCoin (max 0 (htfPreScore htfPenaltyCoin [] - 6)) := by
  refine ⟨by norm_num [htfPenaltyCoin, jsOr], by norm_num [htfPenaltyCoin, jsOr], ?_⟩
  exact (htf_liquidity_penalty htfPenaltyCoin []
    (by norm_num [htfPenaltyCoin, jsOr]) (by norm_num [htfPenaltyCoin, jsOr])).1

/-! ## C10 -/

theorem calculateMACD_signal_eq (prices : List ℚ) (fast slow : ℕ)
    (m : MacdResult) (h : calculateMACD prices fast slow = some m) :
    m.signal = m.macd ∧ m.histogram = 0 := by
  simp only [calculateMACD] at h
  split_ifs at h
  rw [Option.some.injEq] at h
  subst h
  constructor
  · show _ * (0.2 : ℚ) + _ * (0.8 : ℚ) = _
    ring
  · show _ - (_ * (0.2 : ℚ) + _ * (0.8 : ℚ)) = 0
    ring

theorem sr_strength_cases (c : CoinData) (prices : List ℚ) :
    (calculateSupportResistance c prices).strength = "weak" ∨
    (calculateSupportResistance c prices).strength = "moderate" ∨
    (calculateSupportResistance c prices).strength = "strong" := by
  simp only [calculateSupportResistance]
  split_ifs <;> simp

theorem macdSignalStrings_nil (prices : List ℚ) (fast slow : ℕ) :
    macdSignalStrings (calculateMACD prices fast slow) = [] := by
  rcases hm : calculateMACD prices fast slow with _ | m
  · rfl
  · obtain ⟨hs, hh⟩ := calculateMACD_signal_eq _ _ _ _ hm
    simp [macdSignalStrings, hs, hh]

theorem technicalSignals_macd_free (c : CoinData) (stored : List ℚ)
    (lb ub : Bool) (x : String)
    (hx : x = "🚀 MACD bullish crossover" ∨ x = "🔻 MACD bearish crossover") :
    x ∉ technicalSignals c stored lb ub := by
  intro hmem
  simp only [technicalSignals, macdSignalStrings_nil] at hmem
  split at hmem
  · simp at hmem
  · rcases sr_strength_cases c (taPrices c stored) with h | h | h <;>
      rw [h] at hmem <;>
      rcases hx with rfl | rfl <;>
      simp only [List.mem_append] at hmem <;>
      rcases hmem with ((hA | hA) | hA) | hA <;>
      revert hA <;>
      first
      | decide
      | (split_ifs <;> decide)

set_option maxRecDepth 100000 in
/-- C10 counterexample: on the 26-price sequence `floatPrices` (twelve 3s,
fourteen 12s) the MACD triple computed under the source's binary64
arithmetic has `macdLine = 7399007249933594 / 2^51 ≈ 3.2858…` but signal
line `7399007249933595 / 2^51`, one unit in the last place larger — the
rounded blend `(macdLine * 0.2) + (macdLine * 0.8)` is NOT `macdLine` — and
the histogram is `-1 / 2^51`, not 0; consequently `macd < signal` and
`histogram < 0` both hold and the technical-analysis step emits the "MACD
bearish crossover" string, whatever the abstracted Bollinger comparisons
return. -/
theorem macd_float_counterexample :
    26 ≤ floatPrices.length ∧
    calculateMACD_fp floatPrices 12 26 =
      some ⟨⟨false, 7399007249933594, -51⟩, ⟨false, 7399007249933595, -51⟩,
        ⟨true, 4503599627370496, -103⟩⟩ ∧
    (⟨false, 7399007249933595, -51⟩ : FP) ≠ ⟨false, 7399007249933594, -51⟩ ∧
    (⟨true, 4503599627370496, -103⟩ : FP) ≠ fpZero ∧
    fpLt (⟨true, 4503599627370496, -103⟩ : FP) fpZero = true ∧
    FP.toRat ⟨true, 4503599627370496, -103⟩ = -(1 / 2251799813685248) ∧
    macdSignalStrings_fp (calculateMACD_fp floatPrices 12 26) =
      ["🔻 MACD bearish crossover"] ∧
    "🔻 MACD bearish crossover" ∈
      technicalSignals_fp floatCoin floatPrices false false ∧
    "🔻 MACD bearish crossover" ∈
      technicalSignals_fp floatCoin floatPrices false true ∧
    "🔻 MACD bearish crossover" ∈
      technicalSignals_fp floatCoin floatPrices true false ∧
    "🔻 MACD bearish crossover" ∈
      technicalSignals_fp floatCoin floatPrices true true := by
  refine ⟨by decide, by decide, by decide, by decide, by decide, ?_,
    by decide, by decide, by decide, by decide, by decide⟩
  norm_num [FP.toRat, Int.toNat]

set_option maxRecDepth 100000 in
/-- C10 amended: the signal line is the rounded blend
`(macd * 0.2) + (macd * 0.8)`.  In exact arithmetic this blend equals the
MACD line, the histogram is exactly 0, and the two crossover strings are
never emitted by the technical-analysis step; under the binary64 arithmetic
the source actually executes, the blend need not return the MACD line — the
histogram can be nonzero, and the technical-analysis step can emit the "MACD
bearish crossover" string. -/
theorem macd_signal_line_semantics :
    (∀ (prices : List ℚ) (fast slow : ℕ) (m : MacdResult),
      calculateMACD prices fast slow = some m →
      m.signal = m.macd ∧ m.histogram = 0) ∧
    (∀ (c : CoinData) (stored : List ℚ) (lb ub : Bool),
      "🚀 MACD bullish crossover" ∉ technicalSignals c stored lb ub ∧
      "🔻 MACD bearish crossover" ∉ technicalSignals c stored lb ub) ∧
    (∃ (prices : List FP) (m : MacdFP),
      calculateMACD_fp prices 12 26 = some m ∧
      m.signal ≠ m.macd ∧ m.histogram ≠ fpZero) ∧
    (∃ (c : CoinFP) (stored : List FP), ∀ (lb ub : Bool),
      "🔻 MACD bearish crossover" ∈ technicalSignals_fp c stored lb ub) :=
  ⟨calculateMACD_signal_eq,
    fun c stored lb ub =>
      ⟨technicalSignals_macd_free c stored lb ub _ (Or.inl rfl),
        technicalSignals_macd_free c stored lb ub _ (Or.inr rfl)⟩,
    ⟨floatPrices,
      ⟨⟨false, 7399007249933594, -51⟩, ⟨false, 7399007249933595, -51⟩,
        ⟨true, 4503599627370496, -103⟩⟩, by decide, by decide, by decide⟩,
    ⟨floatCoin, floatPrices, by decide⟩⟩

/-- C10 witness: a constant 26-point series has a defined exact-arithmetic
MACD triple `⟨0, 0, 0⟩`, instantiating the hypothesis of the first
component of the amended theorem. -/
theorem macd_signal_line_semantics_witness :
    calculateMACD (List.replicate 26 (1 : ℚ)) 12 26 = some ⟨0, 0, 0⟩ ∧
    ((⟨0, 0, 0⟩ : MacdResult).signal = (⟨0, 0, 0⟩ : MacdResult).macd ∧
      (⟨0, 0, 0⟩ : MacdResult).histogram = 0) := by
  have h : calculateMACD (List.replicate 26 (1 : ℚ)) 12 26 = some ⟨0, 0, 0⟩ := by
    norm_num [calculateMACD, calculateEMA, falsyQ, List.replicate]
  exact ⟨h, macd_signal_line_semantics.1 _ 12 26 _ h⟩

/-! ## C3 and C4 -/

theorem checkRateLimitExpiry_not_limited (st : FetchState) (now : ℤ)
    (h : st.rateLimitInfo.isLimited = false) :
    checkRateLimitExpiry st now = st := by
  simp [checkRateLimitExpiry, h]

theorem fetchLoop_attempts (now : ℤ) (key : String) :
    ∀ (fuel : ℕ) (st : FetchState) (responses : List ApiResponse)
      (made : ℕ) (le : ApiResponse),
      made + min fuel 1 ≤ (fetchLoop now key st responses fuel made le).attempts
  | 0, st, responses, made, le => by
      simp only [fetchLoop, fetchFailureExit]
      split <;> simp
  | fuel + 1, st, responses, made, le => by
      simp only [fetchLoop]
      cases hr : responses.headD .netError with
      | success data hdr => dsimp only; omega
      | httpError status hdr =>
          dsimp only
          split_ifs
          · simp only [fetchFailureExit]
            split <;> dsimp only <;> omega
          · exact le_trans (by omega)
              (fetchLoop_attempts now key fuel st _ (made + 1) _)
          · simp only [fetchFailureExit]
            split <;> dsimp only <;> omega
      | timeout =>
          exact le_trans (by omega)
            (fetchLoop_attempts now key fuel st _ (made + 1) _)
      | netError =>
          exact le_trans (by omega)
            (fetchLoop_attempts now key fuel st _ (made + 1) _)

/-- C4: when all three attempts of one `getTopCryptos` call fail with HTTP 503
and no `retry-after` header, the call issues exactly 3 network requests, the
final state is rate limited with `resetTime` 60 seconds (the 1-minute default
backoff) past the call instant, and the call returns the cached payload for
its key when one exists and the empty array otherwise — a value in every
case, never an exception. -/
theorem exhausted_retries_backoff (st : FetchState) (now : ℤ) (limit : ℕ)
    (hnl : st.rateLimitInfo.isLimited = false)
    (hnc : ¬(shouldUseCachedData st now = true ∧
      (st.apiCache (cacheKey limit)).isSome = true)) :
    (getTopCryptos st now limit
      [.httpError 503 none, .httpError 503 none,
        .httpError 503 none]).attempts = 3 ∧
    (getTopCryptos st now limit
      [.httpError 503 none, .httpError 503 none,
        .httpError 503 none]).state.rateLimitInfo.isLimited = true ∧
    (getTopCryptos st now limit
      [.httpError 503 none, .httpError 503 none,
        .httpError 503 none]).state.rateLimitInfo.resetTime =
      some (now + 60000) ∧
    (getTopCryptos st now limit
      [.httpError 503 none, .httpError 503 none,
        .httpError 503 none]).data =
      (match st.apiCache (cacheKey limit) with
        | some e => e.data
        | none => ([] : Payload)) := by
  have h1 : checkRateLimitExpiry st now = st :=
    checkRateLimitExpiry_not_limited st now hnl
  simp only [getTopCryptos, h1]
  rw [if_neg hnc, if_neg (by simp [hnl])]
  simp only [fetchLoop, List.headD_cons, List.drop_succ_cons, List.drop_nil]
  norm_num
  simp only [fetchFailureExit, handleRateLimitError]
  split <;> simp

/-- C3 counterexample: at time 200000, strictly after the recorded reset time
100000, the call clears the limited flag but issues NO network request (it
serves the still-fresh cache), refuting the claim that a call after
`resetTime` always attempts a fresh network request. -/
theorem rate_limit_counterexample :
    c3CacheState.rateLimitInfo.isLimited = true ∧
    c3CacheState.rateLimitInfo.resetTime = some 100000 ∧
    (100000 : ℤ) < 200000 ∧
    (getTopCryptos c3CacheState 200000 200 [.success [9] none]).attempts = 0 ∧
    (getTopCryptos c3CacheState 200000 200 [.success [9] none]).data =
      [1, 2, 3] := by
  have hkey : cacheKey 200 = "top_cryptos_200" := rfl
  refine ⟨rfl, rfl, by norm_num, ?_, ?_⟩ <;>
    simp [getTopCryptos, checkRateLimitExpiry, shouldUseCachedData,
      truthyTime, c3CacheState, hkey]

/-- C3 amended: (a) a call that reaches the network and receives a 429
response with a `retry-after` of `S` seconds ends rate limited with
`resetTime = now + S` seconds after exactly one request; (b) a call made
while limited with a nonzero reset time strictly in the future returns the
cached data for its key without any network request; (c) a call made
strictly after the reset time clears the limited flag at its start, and
attempts a fresh network request UNLESS a successful fetch within the last 10
minutes together with a cache entry for the key lets it serve the cache
instead. -/
theorem rate_limit_state_machine :
    (∀ (st : FetchState) (now : ℤ) (limit : ℕ) (S : ℕ)
        (rest : List ApiResponse),
      (checkRateLimitExpiry st now).rateLimitInfo.isLimited = false →
      ¬(shouldUseCachedData (checkRateLimitExpiry st now) now = true ∧
        ((checkRateLimitExpiry st now).apiCache (cacheKey limit)).isSome =
          true) →
      (getTopCryptos st now limit
        (.httpError 429 (some S) :: rest)).state.rateLimitInfo.isLimited =
          true ∧
      (getTopCryptos st now limit
        (.httpError 429 (some S) :: rest)).state.rateLimitInfo.resetTime =
          some (now + S * 1000) ∧
      (getTopCryptos st now limit
        (.httpError 429 (some S) :: rest)).attempts = 1) ∧
    (∀ (st : FetchState) (now : ℤ) (limit : ℕ) (rt : ℤ) (e : CacheEntry)
        (responses : List ApiResponse),
      st.rateLimitInfo.isLimited = true →
      st.rateLimitInfo.resetTime = some rt → rt ≠ 0 → now < rt →
      st.apiCache (cacheKey limit) = some e →
      (getTopCryptos st now limit responses).data = e.data ∧
      (getTopCryptos st now limit responses).attempts = 0) ∧
    (∀ (st : FetchState) (now : ℤ) (limit : ℕ) (rt : ℤ)
        (responses : List ApiResponse),
      st.rateLimitInfo.isLimited = true →
      st.rateLimitInfo.resetTime = some rt → rt ≠ 0 → rt < now →
      (checkRateLimitExpiry st now).rateLimitInfo.isLimited = false ∧
      (¬(shouldUseCachedData (checkRateLimitExpiry st now) now = true ∧
          ((checkRateLimitExpiry st now).apiCache (cacheKey limit)).isSome =
            true) →
        1 ≤ (getTopCryptos st now limit responses).attempts)) := by
  refine ⟨?_, ?_, ?_⟩
  · intro st now limit S rest h1 h2
    simp only [getTopCryptos]
    rw [if_neg h2, if_neg (by simp [h1])]
    simp only [fetchLoop, List.headD_cons]
    norm_num
    simp only [fetchFailureExit, handleRateLimitError]
    split <;> simp
  · intro st now limit rt e responses hlim hrt hrt0 hnow hcache
    have h1 : checkRateLimitExpiry st now = st := by
      simp only [checkRateLimitExpiry]
      rw [if_neg]
      rintro ⟨-, -, hlt⟩
      rw [hrt] at hlt
      simp at hlt
      omega
    have h2 : shouldUseCachedData st now = true := by
      simp [shouldUseCachedData, hlim]
    simp only [getTopCryptos, h1]
    rw [if_pos ⟨h2, by rw [hcache]; rfl⟩, hcache]
    exact ⟨rfl, rfl⟩
  · intro st now limit rt responses hlim hrt hrt0 hnow
    have h1 : (checkRateLimitExpiry st now).rateLimitInfo.isLimited = false := by
      simp only [checkRateLimitExpiry]
      rw [if_pos ⟨hlim, by simp [truthyTime, hrt, hrt0], by rw [hrt]; simpa⟩]
    refine ⟨h1, fun h2 => ?_⟩
    simp only [getTopCryptos]
    rw [if_neg h2, if_neg (by simp [h1])]
    have := fetchLoop_attempts now (cacheKey limit) 3
      (checkRateLimitExpiry st now) responses 0 .netError
    simpa using this

/-- C4 witness: the three-503 scenario run from the pristine initial state at
time 1000. -/
theorem exhausted_retries_backoff_witness :
    ({} : FetchState).rateLimitInfo.isLimited = false ∧
    ¬(shouldUseCachedData {} 1000 = true ∧
      (({} : FetchState).apiCache (cacheKey 200)).isSome = true) ∧
    (getTopCryptos {} 1000 200
      [.httpError 503 none, .httpError 503 none,
        .httpError 503 none]).attempts = 3 ∧
    (getTopCryptos {} 1000 200
      [.httpError 503 none, .httpError 503 none,
        .httpError 503 none]).state.rateLimitInfo.resetTime =
      some (1000 + 60000) := by
  have h1 : ({} : FetchState).rateLimitInfo.isLimited = false := rfl
  have h2 : ¬(shouldUseCachedData {} 1000 = true ∧
      (({} : FetchState).apiCache (cacheKey 200)).isSome = true) := by
    simp [shouldUseCachedData, truthyTime]
  obtain ⟨ha, _, hc, _⟩ := exhausted_retries_backoff {} 1000 200 h1 h2
  exact ⟨h1, h2, ha, hc⟩

/-- C3 witness: part (a) at the pristine state with a 120-second
`retry-after`; part (b) at the cached limited state before the reset time;
part (c) at the cached limited state after the reset time. -/
theorem rate_limit_state_machine_witness :
    ((getTopCryptos {} 1000 200
      [.httpError 429 (some 120)]).state.rateLimitInfo.resetTime =
        some (1000 + 120 * 1000) ∧
      (getTopCryptos {} 1000 200 [.httpError 429 (some 120)]).attempts = 1) ∧
    ((getTopCryptos c3CacheState 60000 200 []).data =
        (⟨[1, 2, 3], 50000⟩ : CacheEntry).data ∧
      (getTopCryptos c3CacheState 60000 200 []).attempts = 0) ∧
    (checkRateLimitExpiry c3CacheState 200000).rateLimitInfo.isLimited =
      false := by
  refine ⟨?_, ?_, ?_⟩
  · obtain ⟨-, hb, hc⟩ := rate_limit_state_machine.1 {} 1000 200 120 []
      (by rfl) (by decide)
    exact ⟨hb, hc⟩
  · exact rate_limit_state_machine.2.1 c3CacheState 60000 200 100000
      ⟨[1, 2, 3], 50000⟩ [] rfl rfl (by norm_num) (by norm_num) (by rfl)
  · exact (rate_limit_state_machine.2.2 c3CacheState 200000 200 100000 []
      rfl rfl (by norm_num) (by norm_num)).1

/-! ## C1 -/

/-- C1: on every tick `determineCyclePhaseWithStability` appends the new
observation to the cycle history, capped at 12 entries FIFO (the single
oldest entry is evicted when the cap is exceeded); whenever the updated
history holds at least 3 entries, the dominant phase of the last-8 window
exceeds a 0.6 dominance ratio, and the current risk and opportunity scores
each differ by strictly less than 2 from their means over the last 5
entries, the published phase is that dominant phase annotated as
"(stabilized)"; in every other case the raw phase is published with a
reported stability ratio of 100 and zero risk/opportunity deviation. -/
theorem cycle_phase_stabilization (history : List CycleEntry) (risk opp : ℚ)
    (hcap : history.length ≤ 12) :
    (determineCyclePhaseWithStability history risk opp).1 =
      pushCycleEntry history (newCycleEntry risk opp) ∧
    (pushCycleEntry history (newCycleEntry risk opp) =
      (history ++ [newCycleEntry risk opp]).drop (history.length + 1 - 12) ∧
      (pushCycleEntry history (newCycleEntry risk opp)).length ≤ 12) ∧
    (3 ≤ (pushCycleEntry history (newCycleEntry risk opp)).length →
      (0.6 : ℚ) <
        cycleStabilityRatio (pushCycleEntry history (newCycleEntry risk opp)) →
      jsAbs (risk -
        cycleAvgRisk (pushCycleEntry history (newCycleEntry risk opp))) < 2 →
      jsAbs (opp -
        cycleAvgOpp (pushCycleEntry history (newCycleEntry risk opp))) < 2 →
      (determineCyclePhaseWithStability history risk opp).2.phase =
        cycleDominant (pushCycleEntry history (newCycleEntry risk opp)) ∧
      ∃ d, (determineCyclePhaseWithStability history risk opp).2.description =
        d ++ " (stabilized)") ∧
    (¬(3 ≤ (pushCycleEntry history (newCycleEntry risk opp)).length ∧
        (0.6 : ℚ) <
          cycleStabilityRatio
            (pushCycleEntry history (newCycleEntry risk opp)) ∧
        jsAbs (risk -
          cycleAvgRisk (pushCycleEntry history (newCycleEntry risk opp))) <
            2 ∧
        jsAbs (opp -
          cycleAvgOpp (pushCycleEntry history (newCycleEntry risk opp))) <
            2) →
      (determineCyclePhaseWithStability history risk opp).2.phase =
        (determineCyclePhase risk opp).phase ∧
      (determineCyclePhaseWithStability history risk
        opp).2.stability.stabilityRatio = 100 ∧
      (determineCyclePhaseWithStability history risk
        opp).2.stability.riskVolatility = 0 ∧
      (determineCyclePhaseWithStability history risk
        opp).2.stability.opportunityVolatility = 0) := by
  refine ⟨?_, ⟨?_, ?_⟩, ?_, ?_⟩
  · simp only [determineCyclePhaseWithStability, newCycleEntry]
    split_ifs <;> rfl
  · simp only [pushCycleEntry]
    split_ifs with hc
    · have he : history.length + 1 - 12 = 1 := by
        simp only [List.length_append, List.length_cons, List.length_nil]
          at hc
        omega
      rw [he]
    · have he : history.length + 1 - 12 = 0 := by
        simp only [List.length_append, List.length_cons, List.length_nil]
          at hc
        omega
      rw [he, List.drop_zero]
  · simp only [pushCycleEntry]
    split_ifs with hc <;>
      simp only [List.length_drop, List.length_append, List.length_cons,
        List.length_nil] at hc ⊢ <;>
      omega
  · intro h3 hdom hr ho
    simp only [cycleStabilityRatio, cycleWindow, cycleDominant, cycleAvgRisk,
      cycleAvgOpp, newCycleEntry] at h3 hdom hr ho ⊢
    simp only [determineCyclePhaseWithStability]
    rw [if_pos h3, if_pos hdom, if_pos ⟨hr, ho⟩]
    exact ⟨rfl, ⟨_, rfl⟩⟩
  · intro hneg
    simp only [cycleStabilityRatio, cycleWindow, cycleDominant, cycleAvgRisk,
      cycleAvgOpp, newCycleEntry] at hneg
    simp only [determineCyclePhaseWithStability, newCycleEntry]
    split_ifs with h1 h2 h3
    · exact absurd ⟨h1, h2, h3.1, h3.2⟩ hneg
    all_goals exact ⟨rfl, rfl, rfl, rfl⟩

/-- C1 witness: the FIFO component instantiated on the empty history with
scores (5, 5). -/
theorem cycle_phase_stabilization_witness :
    ([] : List CycleEntry).length ≤ 12 ∧
    (determineCyclePhaseWithStability [] 5 5).1 =
      pushCycleEntry [] (newCycleEntry 5 5) :=
  ⟨by decide, (cycle_phase_stabilization [] 5 5 (by decide)).1⟩

end CryptoMonitor
